import Mathlib

/-!
Shallow embedding of the panorama voxel-block codec and the block
neighborhood assembler, together with theorems settling the spec claims.

Bytes are modelled as `Nat` (values below 256 in any real stream), byte
streams as `List Nat`, Go strings as Lean `String` obtained from raw
bytes, fallible operations as `Option`, and Go's `/` and `%` on `int`
(which truncate toward zero) as `Int.tdiv` and `Int.tmod`.  A Go map
built by repeated assignment is modelled as an association list with
the most recent binding in front, so lookup finds the latest write.
Array indexing that would panic in Go out of range is modelled by an
`Option` result (`none` = panic).
-/

namespace Panorama

/-- Source constant `MapBlockSize = 16`. -/
def MapBlockSize : Nat := 16

/-- Source constant `MapBlockVolume = MapBlockSize^3 = 4096`. -/
def MapBlockVolume : Nat := MapBlockSize * MapBlockSize * MapBlockSize

/-- Source constant `NodeSizeInBytes = 4`. -/
def NodeSizeInBytes : Nat := 4

/-- Modelled from the spec: `spatial.BlockSize` (the block edge length,
"fixed at 16"); the `spatial` package itself is not among the provided
source files. -/
def BlockSize : Int := 16

/-- Modelled from the spec: `spatial.BlockPos`, an integer 3-D block
coordinate (the `spatial` package is not among the provided sources). -/
structure BlockPos where
  x : Int
  y : Int
  z : Int
deriving DecidableEq, Repr

/-- Modelled from the spec: `spatial.NodePos`, an integer 3-D voxel
coordinate (the `spatial` package is not among the provided sources). -/
structure NodePos where
  x : Int
  y : Int
  z : Int
deriving DecidableEq, Repr

/-- Modelled from the spec: component-wise addition `BlockPos.Add`. -/
def BlockPos.add (a b : BlockPos) : BlockPos :=
  ⟨a.x + b.x, a.y + b.y, a.z + b.z⟩

/-- Source `Node`: a voxel's 16-bit ID and two parameter bytes. -/
structure Node where
  id : Nat
  param1 : Nat
  param2 : Nat
deriving DecidableEq, Repr

/-- Source `MapBlock`: the ID→name mapping table and the flat node byte
array.  The Go `map[uint16]string` is modelled as an association list
with the most recently written entry first. -/
structure MapBlock where
  mappings : List (Nat × String)
  nodeData : List Nat
deriving DecidableEq, Repr

/-- Source `readU8`: read one byte, failing on an empty stream. -/
def readU8 : List Nat → Option (Nat × List Nat)
  | [] => none
  | b :: rest => some (b, rest)

/-- Source `readU16`: read a big-endian 16-bit value, failing when fewer
than two bytes remain. -/
def readU16 : List Nat → Option (Nat × List Nat)
  | b1 :: b2 :: rest => some (b1 * 256 + b2, rest)
  | _ => none

/-- Interpret raw bytes as text, as Go's `string(buf)` conversion. -/
def strOfBytes (l : List Nat) : String :=
  String.mk (l.map Char.ofNat)

/-- Source `readString`: a 2-byte length prefix followed by that many raw
bytes; `io.ReadFull` fails when fewer bytes remain. -/
def readString (l : List Nat) : Option (String × List Nat) :=
  match readU16 l with
  | none => none
  | some (len, rest) =>
    if len ≤ rest.length then
      some (strOfBytes (rest.take len), rest.drop len)
    else
      none

/-- The mapping-table loop of source `DecodeMapBlock`: read `n` entries
(2-byte ID, then a length-prefixed name), each entry overwriting any
earlier binding of the same ID (Go map assignment), by consing it in
front of the accumulated table. -/
def readMappings : Nat → List (Nat × String) → List Nat →
    Option (List (Nat × String) × List Nat)
  | 0, m, l => some (m, l)
  | Nat.succ n, m, l =>
    match readU16 l with
    | none => none
    | some (id, l1) =>
      match readString l1 with
      | none => none
      | some (name, l2) => readMappings n ((id, name) :: m) l2

/-- Source `DecodeMapBlock`.  The zstd decompressor is an external
library primitive and is passed in as a function `decompress`; `none`
models any construction or read failure of the compressed stream.  The
two `Seek` calls are modelled by `List.drop` (a `bytes.Reader` seek past
the end succeeds and later reads fail, exactly as dropping does). -/
def decodeMapBlock (decompress : List Nat → Option (List Nat))
    (data : List Nat) : Option MapBlock :=
  match readU8 data with
  | none => none
  | some (version, rest) =>
    if version = 29 then
      match decompress rest with
      | none => none
      | some payload =>
        let p1 := payload.drop (1 + 2 + 4 + 1)
        match readU16 p1 with
        | none => none
        | some (mappingCount, p2) =>
          match readMappings mappingCount [] p2 with
          | none => none
          | some (mappings, p3) =>
            let p4 := p3.drop (1 + 1)
            if MapBlockVolume * NodeSizeInBytes ≤ p4.length then
              some { mappings := mappings,
                     nodeData := p4.take (MapBlockVolume * NodeSizeInBytes) }
            else
              none
    else
      none

/-- Source `MapBlock.ResolveName`: Go map lookup, returning the zero
value `""` when the ID is absent.  With the most recent binding first,
`find?` returns the latest write. -/
def MapBlock.ResolveName (b : MapBlock) (id : Nat) : String :=
  match b.mappings.find? (fun p => p.1 == id) with
  | some p => p.2
  | none => ""

/-- Bounds-checked byte access: Go `slice[i]` panics (here `none`) when
`i` is negative or at least the length. -/
def byteAt (l : List Nat) (i : Int) : Option Nat :=
  if i < 0 then none else l[i.toNat]?

/-- Source `MapBlock.GetNode`: flat index `z·16² + y·16 + x`, ID bytes at
`2·index` and `2·index+1`, param1 at `2·4096+index`, param2 at
`3·4096+index`, ID assembled as `(idHi << 8) | idLo`. -/
def MapBlock.GetNode (b : MapBlock) (x y z : Int) : Option Node :=
  let index := z * ((MapBlockSize : Int) * (MapBlockSize : Int)) +
    y * (MapBlockSize : Int) + x
  (byteAt b.nodeData (2 * index)).bind fun idHi =>
  (byteAt b.nodeData (2 * index + 1)).bind fun idLo =>
  (byteAt b.nodeData (2 * (MapBlockVolume : Int) + index)).bind fun param1 =>
  (byteAt b.nodeData (3 * (MapBlockVolume : Int) + index)).map fun param2 =>
  { id := (idHi <<< 8) ||| idLo, param1 := param1, param2 := param2 }

/-- Source `BlockNeighborhood`: a fixed 27-cell array of optional
blocks (`[27]*world.MapBlock`), here a total function on `Fin 27`. -/
structure BlockNeighborhood where
  blocks : Fin 27 → Option MapBlock

/-- A neighborhood whose 27 cells are all nil, the zero value of the Go
array of pointers. -/
def emptyNeighborhood : BlockNeighborhood :=
  ⟨fun _ => none⟩

/-- Source `neighborhoodCenter = BlockPos{X: 1, Y: 1, Z: 1}`. -/
def neighborhoodCenter : BlockPos :=
  ⟨1, 1, 1⟩

/-- Source `BlockNeighborhood.SetBlock`: writes `blocks[pos.X*9 + pos.Y*3
+ pos.Z]`; an index outside `0..26` would panic in Go (`none` here). -/
def BlockNeighborhood.SetBlock (b : BlockNeighborhood) (pos : BlockPos)
    (block : MapBlock) : Option BlockNeighborhood :=
  let i := pos.x * 9 + pos.y * 3 + pos.z
  if 0 ≤ i ∧ i < 27 then
    some ⟨fun j => if (j : Nat) = i.toNat then some block else b.blocks j⟩
  else
    none

/-- The cell coordinate computed inside source `getBlockByNodePos`
(lines `bx/by/bz`): per-axis Go integer division (truncation toward
zero) by `BlockSize`, plus the center index. -/
def resolveCell (pos : NodePos) : BlockPos :=
  ⟨Int.tdiv pos.x BlockSize + neighborhoodCenter.x,
   Int.tdiv pos.y BlockSize + neighborhoodCenter.y,
   Int.tdiv pos.z BlockSize + neighborhoodCenter.z⟩

/-- Source `BlockNeighborhood.getBlockByNodePos`: reads `blocks[bz*9 +
by*3 + bx]`; `some v` is the stored pointer (possibly nil), `none` a Go
index panic. -/
def BlockNeighborhood.getBlockByNodePos (b : BlockNeighborhood)
    (pos : NodePos) : Option (Option MapBlock) :=
  let c := resolveCell pos
  let i := c.z * 9 + c.y * 3 + c.x
  if h : 0 ≤ i ∧ i < 27 then
    some (b.blocks ⟨i.toNat, by omega⟩)
  else
    none

/-- Source `BlockNeighborhood.GetNode`: a nil cell yields the sentinel
`("air", 0, 0)`; otherwise the local position is taken with Go `%`
(truncated modulo, `Int.tmod`) and looked up in the owning block. -/
def BlockNeighborhood.GetNode (b : BlockNeighborhood) (pos : NodePos) :
    Option (String × Nat × Nat) :=
  match b.getBlockByNodePos pos with
  | none => none
  | some none => some ("air", 0, 0)
  | some (some block) =>
    (block.GetNode (Int.tmod pos.x BlockSize) (Int.tmod pos.y BlockSize)
      (Int.tmod pos.z BlockSize)).map fun node =>
      (block.ResolveName node.id, node.param1, node.param2)

/-- Source `BlockNeighborhood.GetParam1`: same resolution as `GetNode`,
returning only the param1 byte and `0` for a nil cell. -/
def BlockNeighborhood.GetParam1 (b : BlockNeighborhood) (pos : NodePos) :
    Option Nat :=
  match b.getBlockByNodePos pos with
  | none => none
  | some none => some 0
  | some (some block) =>
    (block.GetNode (Int.tmod pos.x BlockSize) (Int.tmod pos.y BlockSize)
      (Int.tmod pos.z BlockSize)).map fun node => node.param1

/-- Source `BlockNeighborhood.FetchBlock`: the world accessor
(`world.World.GetBlock`, fetch plus decode) is passed in as `getBlock`;
on error the method returns with the neighborhood untouched, on success
it delegates to `SetBlock` at `neighborhoodCenter.Add(posOffset)`. -/
def BlockNeighborhood.FetchBlock (b : BlockNeighborhood)
    (getBlock : BlockPos → Option MapBlock) (posOffset worldPos : BlockPos) :
    Option BlockNeighborhood :=
  match getBlock (worldPos.add posOffset) with
  | none => some b
  | some block => b.SetBlock (neighborhoodCenter.add posOffset) block

/-- Follows the spec's words, for comparison with the source
`MapBlock.GetNode`: "four parallel planes in this order: node-ID high
byte, node-ID low byte, param1, param2 — i.e., all 4096 ID-high bytes,
then all ID-low bytes, then all param1 bytes, then all param2 bytes",
read at the flat index. -/
def specPlanarGetNode (b : MapBlock) (x y z : Int) : Option Node :=
  let index := z * ((MapBlockSize : Int) * (MapBlockSize : Int)) +
    y * (MapBlockSize : Int) + x
  (byteAt b.nodeData index).bind fun idHi =>
  (byteAt b.nodeData ((MapBlockVolume : Int) + index)).bind fun idLo =>
  (byteAt b.nodeData (2 * (MapBlockVolume : Int) + index)).bind fun param1 =>
  (byteAt b.nodeData (3 * (MapBlockVolume : Int) + index)).map fun param2 =>
  { id := (idHi <<< 8) ||| idLo, param1 := param1, param2 := param2 }

/-- Big-endian 2-byte encoding of a 16-bit value, the inverse of
`readU16` on values below 65536. -/
def encodeU16 (k : Nat) : List Nat :=
  [k / 256, k % 256]

/-- Byte encoding of one mapping-table entry: 2-byte ID, 2-byte name
length, then the raw name bytes (the layout `readMappings` consumes). -/
def encodeEntry (id : Nat) (name : List Nat) : List Nat :=
  encodeU16 id ++ (encodeU16 name.length ++ name)

/-- An all-zero flat node array of the exact decoded size. -/
def allZeroData : List Nat :=
  List.replicate (MapBlockVolume * NodeSizeInBytes) 0

/-- A concrete block standing for the center of a neighborhood: ID `0`
is named `"center"` and every node byte is zero. -/
def centerBlockEx : MapBlock :=
  { mappings := [(0, "center")], nodeData := allZeroData }

/-- A concrete block standing for a neighbor: ID `0` is named
`"neighbor"` and every node byte is zero. -/
def neighborBlockEx : MapBlock :=
  { mappings := [(0, "neighbor")], nodeData := allZeroData }

/-- A concrete block whose node array is zero except for byte 3 (the
ID-low byte of flat index 1 under the source's interleaved reads, but a
plane byte of no consequence under the spec's planar reads). -/
def planarBlockEx : MapBlock :=
  { mappings := [], nodeData := allZeroData.set 3 7 }

/-- A concrete block with an empty mapping table and all-zero nodes,
exactly what decoding `emptyTablePayload` yields. -/
def zeroBlockEx : MapBlock :=
  { mappings := [], nodeData := allZeroData }

/-- A concrete decompressed payload: 8 metadata bytes, mapping count 0,
the two skipped width bytes, then the all-zero node array. -/
def emptyTablePayload : List Nat :=
  List.replicate 8 0 ++ ([0, 0] ++ ([0, 0] ++ allZeroData))

/-- A neighborhood holding `centerBlockEx` at the center cell `(1,1,1)`
and `neighborBlockEx` at cell `(0,1,1)` (the cell for relative offset
`(-1,0,0)`), built through `SetBlock` as `FetchBlock` would. -/
def boundaryNbEx : Option BlockNeighborhood :=
  (emptyNeighborhood.SetBlock ⟨1, 1, 1⟩ centerBlockEx).bind fun nb =>
    nb.SetBlock ⟨0, 1, 1⟩ neighborBlockEx

/-! Helper lemmas about byte access. -/

lemma byteAt_natCast (l : List Nat) (n : Nat) : byteAt l (n : Int) = l[n]? := by
  simp [byteAt]

lemma byteAt_eq_getD (l : List Nat) (n : Nat) (h : n < l.length) :
    byteAt l (n : Int) = some (l.getD n 0) := by
  rw [byteAt_natCast]
  simp [List.getElem?_eq_getElem h, List.getD_eq_getElem?_getD]

lemma byteAt_replicate (n a : Nat) (i : Int) (h0 : 0 ≤ i) (h1 : i < (n : Int)) :
    byteAt (List.replicate n a) i = some a := by
  simp only [byteAt, if_neg (by omega : ¬ i < 0)]
  exact List.getElem?_replicate_of_lt (by omega)

lemma getD_append_left (l1 l2 : List Nat) (k : Nat) (h : k < l1.length) :
    (l1 ++ l2).getD k 0 = l1.getD k 0 := by
  simp [List.getD_eq_getElem?_getD, List.getElem?_append_left h]

lemma getD_append_right (l1 l2 : List Nat) (k : Nat) (h : l1.length ≤ k) :
    (l1 ++ l2).getD k 0 = l2.getD (k - l1.length) 0 := by
  simp [List.getD_eq_getElem?_getD, List.getElem?_append_right h]

/-- Evaluation of the source `GetNode` at in-range natural coordinates
on a full-size node array: every read is in bounds and the result is
assembled from the four byte positions of the interleaved-ID layout. -/
lemma MapBlock.getNode_nat (b : MapBlock) (x y z : Nat)
    (hx : x < 16) (hy : y < 16) (hz : z < 16)
    (hlen : b.nodeData.length = 16384) :
    b.GetNode (x : Int) (y : Int) (z : Int) =
      some { id := (b.nodeData.getD (2 * (z * 256 + y * 16 + x)) 0) <<< 8 |||
                   b.nodeData.getD (2 * (z * 256 + y * 16 + x) + 1) 0,
             param1 := b.nodeData.getD (2 * 4096 + (z * 256 + y * 16 + x)) 0,
             param2 := b.nodeData.getD (3 * 4096 + (z * 256 + y * 16 + x)) 0 } := by
  have e1 : 2 * ((z : Int) * ((MapBlockSize : Int) * (MapBlockSize : Int)) +
      (y : Int) * (MapBlockSize : Int) + (x : Int)) =
      ((2 * (z * 256 + y * 16 + x) : Nat) : Int) := by
    simp only [MapBlockSize]
    push_cast
    ring
  have e2 : ((2 * (z * 256 + y * 16 + x) : Nat) : Int) + 1 =
      ((2 * (z * 256 + y * 16 + x) + 1 : Nat) : Int) := by
    push_cast
    ring
  have e3 : 2 * ((MapBlockVolume : Int)) + ((z : Int) * ((MapBlockSize : Int) *
      (MapBlockSize : Int)) + (y : Int) * (MapBlockSize : Int) + (x : Int)) =
      ((2 * 4096 + (z * 256 + y * 16 + x) : Nat) : Int) := by
    simp only [MapBlockSize, MapBlockVolume]
    push_cast
    ring
  have e4 : 3 * ((MapBlockVolume : Int)) + ((z : Int) * ((MapBlockSize : Int) *
      (MapBlockSize : Int)) + (y : Int) * (MapBlockSize : Int) + (x : Int)) =
      ((3 * 4096 + (z * 256 + y * 16 + x) : Nat) : Int) := by
    simp only [MapBlockSize, MapBlockVolume]
    push_cast
    ring
  simp only [MapBlock.GetNode, e1, e3, e4, e2]
  rw [byteAt_eq_getD _ _ (by omega), byteAt_eq_getD _ _ (by omega),
    byteAt_eq_getD _ _ (by omega), byteAt_eq_getD _ _ (by omega)]
  rfl

/-- Every block that `decodeMapBlock` returns carries a node array of
exactly `MapBlockVolume * NodeSizeInBytes` bytes: the final `ReadFull`
demands that many bytes and the block is built from exactly them. -/
lemma decode_length (decompress : List Nat → Option (List Nat))
    (data : List Nat) (blk : MapBlock)
    (h : decodeMapBlock decompress data = some blk) :
    blk.nodeData.length = MapBlockVolume * NodeSizeInBytes := by
  unfold decodeMapBlock at h
  split at h
  · exact Option.noConfusion h
  · split at h
    · split at h
      · exact Option.noConfusion h
      · dsimp only at h
        split at h
        · exact Option.noConfusion h
        · split at h
          · exact Option.noConfusion h
          · split at h
            · rename_i hle
              obtain rfl : _ = blk := Option.some.inj h
              simp only [List.length_take, List.length_drop] at hle ⊢
              omega
            · exact Option.noConfusion h
    · exact Option.noConfusion h

/-- Decoding the concrete payload with an empty mapping table and an
all-zero node array succeeds and yields `zeroBlockEx`. -/
lemma decode_emptyTablePayload :
    decodeMapBlock (fun _ => some emptyTablePayload) [29] = some zeroBlockEx := by
  have hdrop : emptyTablePayload.drop (1 + 2 + 4 + 1) =
      [0, 0] ++ ([0, 0] ++ allZeroData) := by
    simp only [emptyTablePayload]
    exact List.drop_left' (by simp)
  have hlen : allZeroData.length = MapBlockVolume * NodeSizeInBytes := by
    simp [allZeroData]
  simp only [decodeMapBlock, readU8, if_pos rfl, hdrop]
  simp only [List.cons_append, List.nil_append, readU16, readMappings]
  rw [List.drop, List.drop, List.drop_zero, if_pos (le_of_eq hlen.symm)]
  simp only [zeroBlockEx, ← hlen, List.take_length]
  simp

/-- C4: the source `MapBlock.GetNode` addresses a voxel by the flat
index `z·16² + y·16 + x` and assembles its 16-bit ID as
`(idHighByte << 8) | idLowByte`; in particular local position
`(x=0, y=0, z=1)` maps to flat index `256`, whose ID is read from node
bytes `2·256` and `2·256+1`. -/
theorem getNode_index_formula (b : MapBlock) (x y z : Nat)
    (hx : x < 16) (hy : y < 16) (hz : z < 16)
    (hlen : b.nodeData.length = MapBlockVolume * NodeSizeInBytes) :
    b.GetNode (x : Int) (y : Int) (z : Int) =
      some { id := (b.nodeData.getD (2 * (z * 256 + y * 16 + x)) 0) <<< 8 |||
                   b.nodeData.getD (2 * (z * 256 + y * 16 + x) + 1) 0,
             param1 := b.nodeData.getD (2 * 4096 + (z * 256 + y * 16 + x)) 0,
             param2 := b.nodeData.getD (3 * 4096 + (z * 256 + y * 16 + x)) 0 } ∧
    b.GetNode 0 0 1 =
      some { id := (b.nodeData.getD (2 * 256) 0) <<< 8 |||
                   b.nodeData.getD (2 * 256 + 1) 0,
             param1 := b.nodeData.getD (2 * 4096 + 256) 0,
             param2 := b.nodeData.getD (3 * 4096 + 256) 0 } := by
  have hlen' : b.nodeData.length = 16384 := by
    simpa [MapBlockVolume, MapBlockSize, NodeSizeInBytes] using hlen
  refine ⟨MapBlock.getNode_nat b x y z hx hy hz hlen', ?_⟩
  have h := MapBlock.getNode_nat b 0 0 1 (by norm_num) (by norm_num) (by norm_num) hlen'
  norm_num at h
  convert h using 3 <;> norm_num

/-- Witness for C4 at the block with all-zero node bytes: flat index 256
carries ID `(0 << 8) | 0 = 0` and zero params. -/
theorem getNode_index_formula_witness :
    zeroBlockEx.nodeData.length = MapBlockVolume * NodeSizeInBytes ∧
    zeroBlockEx.GetNode 0 0 1 = some { id := 0, param1 := 0, param2 := 0 } := by
  have hlen : zeroBlockEx.nodeData.length = MapBlockVolume * NodeSizeInBytes := by
    simp [zeroBlockEx, allZeroData]
  have h := (getNode_index_formula zeroBlockEx 0 0 1 (by norm_num) (by norm_num)
    (by norm_num) hlen).2
  refine ⟨hlen, h.trans ?_⟩
  have hv : MapBlockVolume * NodeSizeInBytes = 16384 := by
    norm_num [MapBlockVolume, MapBlockSize, NodeSizeInBytes]
  simp only [zeroBlockEx, allZeroData, hv, List.getD_eq_getElem?_getD,
    List.getElem?_replicate]
  norm_num

/-- C10: every block produced by `DecodeMapBlock` has a node array of
exactly `MapBlockVolume · NodeSizeInBytes = 16384` bytes, so for every
local coordinate with components in `[0,16)` all four byte offsets used
by `GetNode` (`2·index`, `2·index+1`, `2·4096+index`, `3·4096+index`)
are in bounds and `GetNode` returns a node rather than indexing out of
range. -/
theorem decode_getNode_inbounds (decompress : List Nat → Option (List Nat))
    (data : List Nat) (blk : MapBlock)
    (h : decodeMapBlock decompress data = some blk) :
    blk.nodeData.length = MapBlockVolume * NodeSizeInBytes ∧
    ∀ x y z : Nat, x < 16 → y < 16 → z < 16 →
      (2 * (z * 256 + y * 16 + x) < blk.nodeData.length ∧
       2 * (z * 256 + y * 16 + x) + 1 < blk.nodeData.length ∧
       2 * 4096 + (z * 256 + y * 16 + x) < blk.nodeData.length ∧
       3 * 4096 + (z * 256 + y * 16 + x) < blk.nodeData.length) ∧
      ∃ node, blk.GetNode (x : Int) (y : Int) (z : Int) = some node := by
  have hlen := decode_length decompress data blk h
  have hlen' : blk.nodeData.length = 16384 := by
    simpa [MapBlockVolume, MapBlockSize, NodeSizeInBytes] using hlen
  refine ⟨hlen, fun x y z hx hy hz => ⟨by omega, ?_⟩⟩
  exact ⟨_, MapBlock.getNode_nat blk x y z hx hy hz hlen'⟩

/-- Witness for C10: the concrete decode of `emptyTablePayload` succeeds
with a 16384-byte node array, and `GetNode` answers at `(0,0,0)`. -/
theorem decode_getNode_inbounds_witness :
    decodeMapBlock (fun _ => some emptyTablePayload) [29] = some zeroBlockEx ∧
    zeroBlockEx.nodeData.length = MapBlockVolume * NodeSizeInBytes ∧
    ∃ node, zeroBlockEx.GetNode 0 0 0 = some node := by
  have h := decode_getNode_inbounds (fun _ => some emptyTablePayload) [29]
    zeroBlockEx decode_emptyTablePayload
  exact ⟨decode_emptyTablePayload, h.1,
    (h.2 0 0 0 (by norm_num) (by norm_num) (by norm_num)).2⟩

lemma byteAt_planar_ne (i : Int) (h0 : 0 ≤ i) (hlt : i < 16384) (hne : i ≠ 3) :
    byteAt (allZeroData.set 3 7) i = some 0 := by
  simp only [byteAt, if_neg (by omega : ¬ i < 0), allZeroData]
  rw [List.getElem?_set_ne (by omega : 3 ≠ i.toNat)]
  exact List.getElem?_replicate_of_lt (by
    simp only [MapBlockVolume, NodeSizeInBytes, MapBlockSize]
    omega)

/-- C3 counterexample: on the block whose node bytes are all zero except
byte 3 (value 7), the source `GetNode` at local `(1,0,0)` (flat index 1)
returns ID 7, because it reads the two ID bytes interleaved at offsets
`2·1` and `2·1+1`; reading the same voxel under the layout the claim
describes (ID-high plane at `index`, ID-low plane at `4096+index`)
yields ID 0.  The ID bytes are therefore not stored as two parallel
planes of 4096 bytes. -/
theorem getNode_planar_layout_counterexample :
    planarBlockEx.GetNode 1 0 0 = some { id := 7, param1 := 0, param2 := 0 } ∧
    specPlanarGetNode planarBlockEx 1 0 0 =
      some { id := 0, param1 := 0, param2 := 0 } := by
  constructor
  · have hlen : planarBlockEx.nodeData.length = 16384 := by
      simp only [planarBlockEx, allZeroData, List.length_set, List.length_replicate]
      norm_num [MapBlockVolume, NodeSizeInBytes, MapBlockSize]
    have h := MapBlock.getNode_nat planarBlockEx 1 0 0 (by norm_num) (by norm_num)
      (by norm_num) hlen
    norm_num at h
    rw [h]
    have g2 : planarBlockEx.nodeData[2]? = some 0 := by
      simp only [planarBlockEx, allZeroData]
      rw [List.getElem?_set_ne (by omega)]
      exact List.getElem?_replicate_of_lt
        (by norm_num [MapBlockVolume, NodeSizeInBytes, MapBlockSize])
    have g3 : planarBlockEx.nodeData[3]? = some 7 := by
      simp only [planarBlockEx, allZeroData]
      exact List.getElem?_set_self (by
        simp only [List.length_replicate]
        norm_num [MapBlockVolume, NodeSizeInBytes, MapBlockSize])
    have g4 : planarBlockEx.nodeData[8193]? = some 0 := by
      simp only [planarBlockEx, allZeroData]
      rw [List.getElem?_set_ne (by omega)]
      exact List.getElem?_replicate_of_lt
        (by norm_num [MapBlockVolume, NodeSizeInBytes, MapBlockSize])
    have g5 : planarBlockEx.nodeData[12289]? = some 0 := by
      simp only [planarBlockEx, allZeroData]
      rw [List.getElem?_set_ne (by omega)]
      exact List.getElem?_replicate_of_lt
        (by norm_num [MapBlockVolume, NodeSizeInBytes, MapBlockSize])
    rw [g2, g3, g4, g5]
    decide
  · simp only [specPlanarGetNode, planarBlockEx, MapBlockSize, MapBlockVolume,
      NodeSizeInBytes]
    norm_num
    rw [byteAt_planar_ne 1 (by norm_num) (by norm_num) (by norm_num),
      byteAt_planar_ne 4097 (by norm_num) (by norm_num) (by norm_num),
      byteAt_planar_ne 8193 (by norm_num) (by norm_num) (by norm_num),
      byteAt_planar_ne 12289 (by norm_num) (by norm_num) (by norm_num)]
    norm_num

/-- C3 amended: the decoded 16384-byte node array is laid out as an
8192-byte region of per-voxel 16-bit IDs stored interleaved (big-endian
byte pair at `2·index`, `2·index+1`), followed by one 4096-byte param1
plane and one 4096-byte param2 plane, and `MapBlock.GetNode` reads each
voxel's ID bytes from the interleaved region and its params from the
two trailing planes. -/
theorem getNode_interleaved_layout (m : List (Nat × String))
    (ids p1 p2 : List Nat)
    (hids : ids.length = 2 * MapBlockVolume)
    (hp1 : p1.length = MapBlockVolume) (hp2 : p2.length = MapBlockVolume)
    (x y z : Nat) (hx : x < 16) (hy : y < 16) (hz : z < 16) :
    (MapBlock.mk m (ids ++ (p1 ++ p2))).GetNode (x : Int) (y : Int) (z : Int) =
      some { id := (ids.getD (2 * (z * 256 + y * 16 + x)) 0) <<< 8 |||
                   ids.getD (2 * (z * 256 + y * 16 + x) + 1) 0,
             param1 := p1.getD (z * 256 + y * 16 + x) 0,
             param2 := p2.getD (z * 256 + y * 16 + x) 0 } := by
  have hv : MapBlockVolume = 4096 := by norm_num [MapBlockVolume, MapBlockSize]
  have hids' : ids.length = 8192 := by omega
  have hp1' : p1.length = 4096 := by omega
  have hp2' : p2.length = 4096 := by omega
  have hlen : (MapBlock.mk m (ids ++ (p1 ++ p2))).nodeData.length = 16384 := by
    simp only [List.length_append]
    omega
  rw [MapBlock.getNode_nat _ x y z hx hy hz hlen]
  have h1 : (ids ++ (p1 ++ p2)).getD (2 * (z * 256 + y * 16 + x)) 0 =
      ids.getD (2 * (z * 256 + y * 16 + x)) 0 :=
    getD_append_left _ _ _ (by omega)
  have h2 : (ids ++ (p1 ++ p2)).getD (2 * (z * 256 + y * 16 + x) + 1) 0 =
      ids.getD (2 * (z * 256 + y * 16 + x) + 1) 0 :=
    getD_append_left _ _ _ (by omega)
  have h3 : (ids ++ (p1 ++ p2)).getD (2 * 4096 + (z * 256 + y * 16 + x)) 0 =
      p1.getD (z * 256 + y * 16 + x) 0 := by
    rw [getD_append_right _ _ _ (by omega)]
    have e : 2 * 4096 + (z * 256 + y * 16 + x) - ids.length =
        z * 256 + y * 16 + x := by omega
    rw [e, getD_append_left _ _ _ (by omega)]
  have h4 : (ids ++ (p1 ++ p2)).getD (3 * 4096 + (z * 256 + y * 16 + x)) 0 =
      p2.getD (z * 256 + y * 16 + x) 0 := by
    rw [getD_append_right _ _ _ (by omega)]
    have e : 3 * 4096 + (z * 256 + y * 16 + x) - ids.length =
        4096 + (z * 256 + y * 16 + x) := by omega
    rw [e, getD_append_right _ _ _ (by omega)]
    have e2 : 4096 + (z * 256 + y * 16 + x) - p1.length =
        z * 256 + y * 16 + x := by omega
    rw [e2]
  rw [show (MapBlock.mk m (ids ++ (p1 ++ p2))).nodeData = ids ++ (p1 ++ p2) from rfl,
    h1, h2, h3, h4]

/-- Witness for the amended C3 layout at `(0,0,1)` on a block whose ID
region is all ones, param1 plane all twos, param2 plane all threes: the
ID is `(1 << 8) | 1 = 257`. -/
theorem getNode_interleaved_layout_witness :
    (MapBlock.mk [] (List.replicate 8192 1 ++
        (List.replicate 4096 2 ++ List.replicate 4096 3))).GetNode 0 0 1 =
      some { id := 257, param1 := 2, param2 := 3 } := by
  have h := getNode_interleaved_layout [] (List.replicate 8192 1)
    (List.replicate 4096 2) (List.replicate 4096 3)
    (by simp only [List.length_replicate]; norm_num [MapBlockVolume, MapBlockSize])
    (by simp only [List.length_replicate]; norm_num [MapBlockVolume, MapBlockSize])
    (by simp only [List.length_replicate]; norm_num [MapBlockVolume, MapBlockSize])
    0 0 1 (by norm_num) (by norm_num) (by norm_num)
  norm_num at h
  rw [h]
  decide

/-- C5: for every input whose first byte is not `29` and every
decompressor, `DecodeMapBlock` fails and produces no MapBlock — only
version 29 is accepted. -/
theorem decode_version_guard (decompress : List Nat → Option (List Nat))
    (b : Nat) (rest : List Nat) (hb : b ≠ 29) :
    decodeMapBlock decompress (b :: rest) = none := by
  simp [decodeMapBlock, readU8, hb]

/-- Witness for C5 at version byte 30. -/
theorem decode_version_guard_witness :
    (30 : Nat) ≠ 29 ∧ decodeMapBlock (fun l => some l) [30] = none :=
  ⟨by decide, decode_version_guard (fun l => some l) 30 [] (by decide)⟩

/-- C9: `ResolveName` never fails: when the mapping table has a binding
whose ID matches, the (most recently written) bound name is returned,
and when no entry carries the ID the empty string is returned. -/
theorem resolveName_total (b : MapBlock) (id : Nat) :
    (∀ p, b.mappings.find? (fun q => q.1 == id) = some p →
      b.ResolveName id = p.2) ∧
    ((∀ p ∈ b.mappings, p.1 ≠ id) → b.ResolveName id = "") := by
  constructor
  · intro p hp
    simp [MapBlock.ResolveName, hp]
  · intro h
    have hnone : b.mappings.find? (fun q => q.1 == id) = none := by
      apply List.find?_eq_none.mpr
      intro p hp
      simpa using h p hp
    simp [MapBlock.ResolveName, hnone]

/-- Witness for C9 on a one-entry table: ID 1 resolves to its name and
the unmapped ID 2 resolves to the empty string. -/
theorem resolveName_total_witness :
    (MapBlock.mk [(1, "stone")] []).ResolveName 1 = "stone" ∧
    (MapBlock.mk [(1, "stone")] []).ResolveName 2 = "" :=
  ⟨(resolveName_total (MapBlock.mk [(1, "stone")] []) 1).1 (1, "stone") (by decide),
   (resolveName_total (MapBlock.mk [(1, "stone")] []) 2).2 (by decide)⟩

/-- C6: when the resolved cell of a node position holds no block, the
neighborhood `GetNode` returns exactly the sentinel `("air", 0, 0)` and
`GetParam1` returns `0`, without failing. -/
theorem getNode_absent_cell (b : BlockNeighborhood) (pos : NodePos)
    (h : b.getBlockByNodePos pos = some none) :
    b.GetNode pos = some ("air", 0, 0) ∧ b.GetParam1 pos = some 0 := by
  constructor
  · simp [BlockNeighborhood.GetNode, h]
  · simp [BlockNeighborhood.GetParam1, h]

/-- Witness for C6 on the all-absent neighborhood at the origin. -/
theorem getNode_absent_cell_witness :
    emptyNeighborhood.GetNode ⟨0, 0, 0⟩ = some ("air", 0, 0) ∧
    emptyNeighborhood.GetParam1 ⟨0, 0, 0⟩ = some 0 :=
  getNode_absent_cell emptyNeighborhood ⟨0, 0, 0⟩ (by decide)

/-- C2 refutation at a concrete input: node position `(16,5,5)` resolves
to cell `(2,1,1)` — exactly the cell at which `SetBlock` just stored a
block (the cell for relative offset `(1,0,0)`, index-shifted by +1) —
yet `getBlockByNodePos` finds nothing there and `GetNode` answers the
absent-cell sentinel, because `SetBlock` linearizes the cell as
`x·9 + y·3 + z` (index 22) while `getBlockByNodePos` reads
`z·9 + y·3 + x` (index 14).  The two cell indexings do not agree. -/
theorem setBlock_getBlock_index_mismatch :
    resolveCell ⟨16, 5, 5⟩ = ⟨2, 1, 1⟩ ∧
    (emptyNeighborhood.SetBlock ⟨2, 1, 1⟩ neighborBlockEx).map
        (fun nb => (nb.getBlockByNodePos ⟨16, 5, 5⟩, nb.GetNode ⟨16, 5, 5⟩)) =
      some (some none, some ("air", 0, 0)) := by
  constructor
  · decide
  · decide

/-! Round-trip lemmas for the byte encodings consumed by the mapping
table parser. -/

lemma readU16_encode (k : Nat) (rest : List Nat) :
    readU16 (encodeU16 k ++ rest) = some (k, rest) := by
  simp only [encodeU16, List.cons_append, List.nil_append, readU16]
  have h : k / 256 * 256 + k % 256 = k := by omega
  rw [h]

lemma readString_encode (s rest : List Nat) :
    readString (encodeU16 s.length ++ (s ++ rest)) = some (strOfBytes s, rest) := by
  simp only [readString, readU16_encode]
  rw [if_pos (by simp), List.take_left, List.drop_left]

lemma readMappings_step (n : Nat) (acc : List (Nat × String)) (id : Nat)
    (name : List Nat) (rest : List Nat) :
    readMappings (n + 1) acc (encodeEntry id name ++ rest) =
      readMappings n ((id, strOfBytes name) :: acc) rest := by
  simp only [readMappings, encodeEntry, List.append_assoc, readU16_encode,
    readString_encode]

/-- C7: a version-29 stream whose decompressed mapping table binds the
same 16-bit ID twice with two different names decodes successfully, and
`ResolveName` on that ID returns the second (last-read) name —
overwrite semantics, not an error. -/
theorem decode_duplicate_id_last_wins (id : Nat) (n1 n2 : List Nat)
    (nd : List Nat) (_hid : id < 65536)
    (_h1 : n1.length < 65536) (_h2 : n2.length < 65536)
    (_hne : n1 ≠ n2)
    (hnd : nd.length = MapBlockVolume * NodeSizeInBytes) :
    ∃ blk,
      decodeMapBlock
        (fun _ => some (List.replicate 8 0 ++ ([0, 2] ++
          (encodeEntry id n1 ++ (encodeEntry id n2 ++ ([0, 0] ++ nd))))))
        [29] = some blk ∧
      blk.ResolveName id = strOfBytes n2 := by
  refine ⟨⟨[(id, strOfBytes n2), (id, strOfBytes n1)], nd⟩, ?_, ?_⟩
  · have hdrop : (List.replicate 8 0 ++ ([0, 2] ++
        (encodeEntry id n1 ++ (encodeEntry id n2 ++ ([0, 0] ++ nd))))).drop
          (1 + 2 + 4 + 1) =
        [0, 2] ++ (encodeEntry id n1 ++ (encodeEntry id n2 ++ ([0, 0] ++ nd))) :=
      List.drop_left' (by simp)
    simp only [decodeMapBlock, readU8, if_pos rfl, hdrop]
    simp only [List.cons_append, List.nil_append, readU16]
    norm_num
    rw [show (2 : Nat) = 1 + 1 from rfl, readMappings_step,
      show (1 : Nat) = 0 + 1 from rfl, readMappings_step]
    simp only [readMappings]
    rw [if_pos (by simp only [List.length_cons]; omega), ← hnd]
    simp
  · simp [MapBlock.ResolveName]

/-- Witness for C7: ID 5 bound first to name byte `"a"` (97) and then
to `"b"` (98); the decoded block resolves 5 to `"b"`. -/
theorem decode_duplicate_id_last_wins_witness :
    ∃ blk,
      decodeMapBlock
        (fun _ => some (List.replicate 8 0 ++ ([0, 2] ++
          (encodeEntry 5 [97] ++ (encodeEntry 5 [98] ++ ([0, 0] ++ allZeroData))))))
        [29] = some blk ∧
      blk.ResolveName 5 = strOfBytes [98] :=
  decode_duplicate_id_last_wins 5 [97] [98] allZeroData (by decide) (by decide)
    (by decide) (by decide) (by simp [allZeroData])

/-- C8: when the world accessor's fetch+decode fails for
`worldOrigin + offset`, `FetchBlock` returns the neighborhood unchanged
— the error is absorbed, not propagated, so a cell that was absent
stays absent and every other cell keeps its value; when the accessor
succeeds, the decoded block is stored at the cell for that offset
(`neighborhoodCenter + offset` under `SetBlock`'s indexing) and all
other cells are unchanged. -/
theorem fetchBlock_absorbs_errors (getBlock : BlockPos → Option MapBlock)
    (off world : BlockPos) (b : BlockNeighborhood)
    (hx : -1 ≤ off.x ∧ off.x ≤ 1) (hy : -1 ≤ off.y ∧ off.y ≤ 1)
    (hz : -1 ≤ off.z ∧ off.z ≤ 1) :
    (getBlock (world.add off) = none →
      b.FetchBlock getBlock off world = some b) ∧
    (∀ blk, getBlock (world.add off) = some blk →
      ∃ nb, b.FetchBlock getBlock off world = some nb ∧
        ∀ j : Fin 27,
          nb.blocks j =
            if (j : Nat) = ((neighborhoodCenter.add off).x * 9 +
                (neighborhoodCenter.add off).y * 3 +
                (neighborhoodCenter.add off).z).toNat
            then some blk else b.blocks j) := by
  constructor
  · intro h
    simp [BlockNeighborhood.FetchBlock, h]
  · intro blk h
    have hin : 0 ≤ (neighborhoodCenter.add off).x * 9 +
        (neighborhoodCenter.add off).y * 3 + (neighborhoodCenter.add off).z ∧
        (neighborhoodCenter.add off).x * 9 +
        (neighborhoodCenter.add off).y * 3 + (neighborhoodCenter.add off).z < 27 := by
      obtain ⟨hx1, hx2⟩ := hx
      obtain ⟨hy1, hy2⟩ := hy
      obtain ⟨hz1, hz2⟩ := hz
      simp only [neighborhoodCenter, BlockPos.add]
      omega
    refine ⟨⟨fun j => if (j : Nat) = ((neighborhoodCenter.add off).x * 9 +
        (neighborhoodCenter.add off).y * 3 +
        (neighborhoodCenter.add off).z).toNat
        then some blk else b.blocks j⟩, ?_, fun j => rfl⟩
    simp only [BlockNeighborhood.FetchBlock, h, BlockNeighborhood.SetBlock]
    rw [if_pos hin]

/-- Witness for C8 at offset `(1,0,0)` from the origin: a failing
accessor leaves the empty neighborhood empty, and a succeeding one
stores the block exactly at cell index 22. -/
theorem fetchBlock_absorbs_errors_witness :
    (emptyNeighborhood.FetchBlock (fun _ => none) ⟨1, 0, 0⟩ ⟨0, 0, 0⟩ =
      some emptyNeighborhood) ∧
    (∃ nb, emptyNeighborhood.FetchBlock (fun _ => some neighborBlockEx) ⟨1, 0, 0⟩
        ⟨0, 0, 0⟩ = some nb ∧
      ∀ j : Fin 27, nb.blocks j =
        if (j : Nat) = 22 then some neighborBlockEx else none) := by
  constructor
  · exact (fetchBlock_absorbs_errors (fun _ => none) ⟨1, 0, 0⟩ ⟨0, 0, 0⟩
      emptyNeighborhood (by decide) (by decide) (by decide)).1 rfl
  · obtain ⟨nb, hnb, hcells⟩ := (fetchBlock_absorbs_errors
      (fun _ => some neighborBlockEx) ⟨1, 0, 0⟩ ⟨0, 0, 0⟩ emptyNeighborhood
      (by decide) (by decide) (by decide)).2 neighborBlockEx rfl
    refine ⟨nb, hnb, fun j => ?_⟩
    rw [hcells j]
    norm_num [neighborhoodCenter, BlockPos.add, emptyNeighborhood]
    simp

lemma byteAt_allZero (i : Int) (h0 : 0 ≤ i) (h1 : i < 16384) :
    byteAt allZeroData i = some 0 := by
  simp only [allZeroData]
  refine byteAt_replicate _ _ _ h0 ?_
  have hc : ((MapBlockVolume * NodeSizeInBytes : Nat) : Int) = 16384 := by
    norm_num [MapBlockVolume, NodeSizeInBytes, MapBlockSize]
  omega

/-- Evaluation of the source block `GetNode` at the garbled local
position `(-1,5,5)` that the neighborhood passes after truncated
modulo: flat index `5·256 + 5·16 − 1 = 1359`, all four reads land in
bounds inside the center block's (all-zero) data. -/
lemma centerBlock_neg_local :
    centerBlockEx.GetNode (-1) 5 5 = some { id := 0, param1 := 0, param2 := 0 } := by
  simp only [MapBlock.GetNode, centerBlockEx]
  norm_num [MapBlockSize, MapBlockVolume, NodeSizeInBytes]
  rw [byteAt_allZero 2718 (by norm_num) (by norm_num),
    byteAt_allZero 2719 (by norm_num) (by norm_num),
    byteAt_allZero 9551 (by norm_num) (by norm_num),
    byteAt_allZero 13647 (by norm_num) (by norm_num)]
  rfl

/-- For any neighborhood, `getBlockByNodePos` at `(-1,5,5)` reads the
array cell 13 — the center cell — because Go's truncating division
gives `(-1)/16 = 0` on each axis summand. -/
lemma getBlock_neg_reads_center (b : BlockNeighborhood) :
    b.getBlockByNodePos ⟨-1, 5, 5⟩ = some (b.blocks ⟨13, by omega⟩) := rfl

/-- C1 refutation at the spec's own test vector: with `BlockSize = 16`,
node position `(-1,5,5)` resolves to the CENTER cell `(1,1,1)` (Go `/`
truncates toward zero, so `(-1)/16 = 0`), the local position is taken
as `(-1) % 16 = -1` rather than `15`, and `GetNode` on a neighborhood
holding distinct center and neighbor blocks answers from the center
block — it wraps into the center block instead of resolving into the
neighbor at offset `(-1,0,0)` with local position `(15,5,5)`. -/
theorem getNode_negative_wraps_center :
    resolveCell ⟨-1, 5, 5⟩ = neighborhoodCenter ∧
    Int.tmod (-1) BlockSize = -1 ∧
    boundaryNbEx.map (fun nb => nb.GetNode ⟨-1, 5, 5⟩) =
      some (some ("center", 0, 0)) := by
  refine ⟨by decide, by decide, ?_⟩
  simp only [boundaryNbEx, BlockNeighborhood.SetBlock, emptyNeighborhood]
  rw [if_pos (by decide)]
  rw [Option.some_bind, if_pos (by decide), Option.map_some']
  rw [Option.some.injEq]
  simp only [BlockNeighborhood.GetNode, getBlock_neg_reads_center]
  norm_num
  rw [show Int.toNat 4 = 4 from rfl, show Int.toNat 13 = 13 from rfl]
  norm_num
  refine ⟨⟨0, 0, 0⟩, ?_, ?_, rfl, rfl⟩
  · rw [show Int.tmod (-1) BlockSize = -1 from by decide,
      show Int.tmod 5 BlockSize = 5 from by decide]
    exact centerBlock_neg_local
  · simp [MapBlock.ResolveName, centerBlockEx]

end Panorama
